import Mathlib

/-!
Verification of the ARM64 SVE vector code generator
(compiler/optimizing/code_generator_vector_arm64_sve.cc).

The file shallowly embeds the parts of the code generator that the
verified properties are about:

* the acceptance sets of the Location Planner (LocationsBuilderARM64Sve
  and its helpers CreateVecUnOpLocations, CreateVecBinOpLocations,
  CreateVecAccumLocations, CreateVecShiftLocations) and of the
  Instruction Emitter (InstructionCodeGeneratorARM64Sve), where a
  LOG(FATAL) default branch is modelled as rejection;
* the lane-level semantics of the emitted AArch64 NEON instruction
  sequences (saturating add/sub, halving add, bitwise not, dot product
  fused and fallback paths, sum-of-absolute-differences accumulate,
  the compressed-string vector load);
* the scratch-register acquire/release traces of the emission routines
  that use a UseScratchRegisterScope.

Machine lanes are modelled as bit patterns: a w-bit lane is a natural
number below 2 ^ w, the signed reading of a lane is given by sint, and
re-encoding an integer into a w-bit lane is given by bits.
-/

namespace ArtSveVec

/-- Packed element types of vector IR nodes (the DataType values that the
vector code generator distinguishes). -/
inductive VType
  | kBool | kUint8 | kInt8 | kUint16 | kInt16 | kUint32 | kInt32 | kInt64
  | kFloat32 | kFloat64
deriving DecidableEq, Fintype, Repr

/-- Signed (two's complement) reading of a w-bit lane bit pattern. -/
def sint (w : Nat) (v : Nat) : Int :=
  if v < 2 ^ (w - 1) then (v : Int) else (v : Int) - 2 ^ w

/-- Encoding of an integer as a w-bit lane bit pattern (truncation to the
low w bits). -/
def bits (w : Nat) (x : Int) : Nat :=
  (x % (2 ^ w : Int)).toNat

/-! ## Location Planner and Instruction Emitter acceptance sets

A planner or emitter routine accepts a packed type when its switch has a
case for it; the LOG(FATAL) default branch is rejection. -/

/-- Packed types accepted by CreateVecAccumLocations, the Location Planner
helper shared by VisitVecMultiplyAccumulate and VisitVecSADAccumulate. -/
def accumPlannerAccepts : VType → Bool
  | .kUint8 | .kInt8 | .kUint16 | .kInt16 | .kInt32 | .kInt64 => true
  | _ => false

/-- Packed types for which the Instruction Emitter routine
VisitVecMultiplyAccumulate emits code (its switch has cases for 8-, 16-
and 32-bit integer lanes only; the default branch is LOG(FATAL)). -/
def mulAccEmitterAccepts : VType → Bool
  | .kUint8 | .kInt8 | .kUint16 | .kInt16 | .kInt32 => true
  | _ => false

/-- Packed types accepted by CreateVecBinOpLocations, the Location Planner
helper used for VisitVecDiv (and for the other binary operations). -/
def binOpPlannerAccepts : VType → Bool
  | .kBool | .kUint8 | .kInt8 | .kUint16 | .kInt16 | .kInt32 | .kInt64
  | .kFloat32 | .kFloat64 => true
  | _ => false

/-- Packed types for which the Instruction Emitter routine VisitVecDiv
emits code: only the two float types; every integer type hits the
LOG(FATAL) default. -/
def divEmitterAccepts : VType → Bool
  | .kFloat32 | .kFloat64 => true
  | _ => false

/-- Packed types accepted by CreateVecUnOpLocations, the Location Planner
helper used for VisitVecCnv (and for reduce, negate, abs and not). -/
def unOpPlannerAccepts : VType → Bool
  | .kBool | .kUint8 | .kInt8 | .kUint16 | .kInt16 | .kInt32 | .kInt64
  | .kFloat32 | .kFloat64 => true
  | _ => false

/-- Source and result types for which the Instruction Emitter routine
VisitVecCnv emits code: only Int32 to Float32; anything else is
LOG(FATAL). -/
def cnvEmitterAccepts (src dst : VType) : Bool :=
  src == .kInt32 && dst == .kFloat32

/-! ## Horizontal reduction (VisitVecReduce) -/

/-- Reduction kinds of HVecReduce. -/
inductive RedKind
  | sum | rmin | rmax
deriving DecidableEq, Fintype, Repr

/-- Reduction instructions that VisitVecReduce can emit. Addv, Sminv and
Smaxv are direct horizontal reductions over 4 x 32-bit lanes; Addp is the
pairwise add used for the 2 x 64-bit sum. -/
inductive RedInstr
  | addv | sminv | smaxv | addp
deriving DecidableEq, Fintype, Repr

/-- Instruction selected by VisitVecReduce for a reduction kind and packed
type; none models the LOG(FATAL) branches (both the unsupported-type
default and the unsupported 64-bit min/max default). -/
def reduceInstr (k : RedKind) (t : VType) : Option RedInstr :=
  match t with
  | .kInt32 =>
    match k with
    | .sum => some .addv
    | .rmin => some .sminv
    | .rmax => some .smaxv
  | .kInt64 =>
    match k with
    | .sum => some .addp
    | _ => none
  | _ => none

/-- Lane semantics of the Addp pairwise add emitted for the 2 x 64-bit sum
reduction: the destination lane is the sum of the two 64-bit source lanes
modulo 2 ^ 64. -/
def addpPairwise64 (v : Fin 2 → Fin (2 ^ 64)) : Nat :=
  ((v 0 : Nat) + (v 1 : Nat)) % 2 ^ 64

/-! ## Unary operation locations (CreateVecUnOpLocations) -/

/-- Unary vector operation kinds that use CreateVecUnOpLocations. -/
inductive UnOpKind
  | reduce | cnv | neg | abs | bnot
deriving DecidableEq, Fintype, Repr

/-- Output overlap constraint produced by CreateVecUnOpLocations:
some true is Location kOutputOverlap (output may alias the input),
some false is Location kNoOutputOverlap, and none is the LOG(FATAL)
default for an unsupported packed type. The kBool case consults
IsVecNot; every other accepted case is kNoOutputOverlap. -/
def unOpOutOverlap (k : UnOpKind) (t : VType) : Option Bool :=
  match t with
  | .kBool => some (k == .bnot)
  | .kUint8 | .kInt8 | .kUint16 | .kInt16 | .kInt32 | .kInt64
  | .kFloat32 | .kFloat64 => some false
  | _ => none

/-! ## Saturating add and subtract
(VisitVecSaturationAdd / VisitVecSaturationSub) -/

/-- Signed saturation clamp to the w-bit two's complement range. -/
def clampS (w : Nat) (s : Int) : Int :=
  max (-(2 ^ (w - 1))) (min (2 ^ (w - 1) - 1) s)

/-- AArch64 Uqadd on w-bit lanes: unsigned saturating add. -/
def uqadd (w x y : Nat) : Nat := min (x + y) (2 ^ w - 1)

/-- AArch64 Sqadd on w-bit lanes: signed saturating add of the signed
readings, re-encoded. -/
def sqadd (w x y : Nat) : Nat := bits w (clampS w (sint w x + sint w y))

/-- AArch64 Uqsub on w-bit lanes: unsigned saturating subtract (clamps at
zero; Nat subtraction is exactly this clamp). -/
def uqsub (x y : Nat) : Nat := x - y

/-- AArch64 Sqsub on w-bit lanes: signed saturating subtract. -/
def sqsub (w x y : Nat) : Nat := bits w (clampS w (sint w x - sint w y))

/-- Lane function selected by the VisitVecSaturationAdd switch: Uqadd for
the unsigned packed types, Sqadd for the signed ones, LOG(FATAL)
otherwise. -/
def satAddLane : VType → Nat → Nat → Option Nat
  | .kUint8, x, y => some (uqadd 8 x y)
  | .kInt8, x, y => some (sqadd 8 x y)
  | .kUint16, x, y => some (uqadd 16 x y)
  | .kInt16, x, y => some (sqadd 16 x y)
  | _, _, _ => none

/-- Lane function selected by the VisitVecSaturationSub switch: Uqsub for
the unsigned packed types, Sqsub for the signed ones, LOG(FATAL)
otherwise. -/
def satSubLane : VType → Nat → Nat → Option Nat
  | .kUint8, x, y => some (uqsub x y)
  | .kInt8, x, y => some (sqsub 8 x y)
  | .kUint16, x, y => some (uqsub x y)
  | .kInt16, x, y => some (sqsub 16 x y)
  | _, _, _ => none

/-! ## Halving add (VisitVecHalvingAdd) -/

/-- AArch64 Uhadd: unsigned halving add, the sum computed exactly and
shifted right by one. -/
def uhadd (x y : Nat) : Nat := (x + y) / 2

/-- AArch64 Urhadd: unsigned rounding halving add (adds one below the
shift point). -/
def urhadd (x y : Nat) : Nat := (x + y + 1) / 2

/-- AArch64 Shadd on w-bit lanes: signed halving add, an arithmetic
(floor) shift of the exact signed sum, re-encoded. -/
def shadd (w x y : Nat) : Nat := bits w ((sint w x + sint w y).fdiv 2)

/-- AArch64 Srhadd on w-bit lanes: signed rounding halving add. -/
def srhadd (w x y : Nat) : Nat := bits w ((sint w x + sint w y + 1).fdiv 2)

/-- Lane function selected by the VisitVecHalvingAdd switch: the rounded
flag (IsRounded) picks Urhadd/Srhadd over Uhadd/Shadd, the signedness of
the packed type picks the instruction family, and every other packed
type is LOG(FATAL). -/
def halvingAddLane : VType → Bool → Nat → Nat → Option Nat
  | .kUint8, r, x, y => some (if r then urhadd x y else uhadd x y)
  | .kInt8, r, x, y => some (if r then srhadd 8 x y else shadd 8 x y)
  | .kUint16, r, x, y => some (if r then urhadd x y else uhadd x y)
  | .kInt16, r, x, y => some (if r then srhadd 16 x y else shadd 16 x y)
  | _, _, _, _ => none

/-! ## Bitwise not (VisitVecNot) -/

/-- Byte lane function of VisitVecNot: the kBool case emits Movi of 1
into every byte lane followed by Eor with the source (an XOR against a
constant one-per-lane pattern); the integer cases emit Not, a plain
bitwise complement of all 16 bytes; the float types hit LOG(FATAL). -/
def vecNotLane : VType → Nat → Option Nat
  | .kBool, v => some (1 ^^^ v)
  | .kUint8, v => some (v ^^^ 255)
  | .kInt8, v => some (v ^^^ 255)
  | .kUint16, v => some (v ^^^ 255)
  | .kInt16, v => some (v ^^^ 255)
  | .kInt32, v => some (v ^^^ 255)
  | .kInt64, v => some (v ^^^ 255)
  | _, _ => none
/-! ## Dot product accumulate (VisitVecDotProd)

The accumulator is four 32-bit lanes, the 8-bit inputs are sixteen byte
lanes. The fused path is a single Udot/Sdot; the portable fallback is a
widening multiply (Umull/Smull and Umull2/Smull2 into eight 16-bit
intermediate lanes) followed by widening accumulates of the low and high
halves (Uaddw/Uaddw2 or Saddw/Saddw2). Lane accessors take a Nat index
reduced modulo the lane count (the index is always in range at every
use). -/

/-- Build-time switch for Armv8.4-a dot product instructions; pinned off
in the source pending a device to test on. -/
def kArm64EmitDotProdInstructions : Bool := false

/-- Capability Gate ShouldEmitDotProductInstructions: the build-time
switch conjoined with the runtime HasDotProd capability. -/
def shouldEmitDotProductInstructions (hasDotProd : Bool) : Bool :=
  kArm64EmitDotProdInstructions && hasDotProd

/-- Byte lane j of a sixteen-byte source register, as a Nat. -/
def vecByte (a : Fin 16 → Fin 256) (j : Nat) : Nat :=
  (a ⟨j % 16, by omega⟩ : Nat)

/-- Exact unsigned product of byte lanes j of the two sources. It is
below 2 ^ 16, so the 16-bit intermediate lanes of Umull/Umull2 hold it
without truncation. -/
def uprod8 (a b : Fin 16 → Fin 256) (j : Nat) : Nat := vecByte a j * vecByte b j

/-- Exact signed product of byte lanes j of the two sources, as an
integer (it fits the signed 16-bit range). -/
def sprod8 (a b : Fin 16 → Fin 256) (j : Nat) : Int :=
  sint 8 (vecByte a j) * sint 8 (vecByte b j)

/-- Accumulator lane i after the fused Udot: the lane accumulates the
products of the four consecutive source byte lanes 4i .. 4i+3, modulo
2 ^ 32. -/
def udotFusedLane (acc : Fin 4 → Fin (2 ^ 32)) (a b : Fin 16 → Fin 256) (i : Fin 4) :
    Nat :=
  ((acc i : Nat) + uprod8 a b (4 * i.val) + uprod8 a b (4 * i.val + 1)
      + uprod8 a b (4 * i.val + 2) + uprod8 a b (4 * i.val + 3)) % 2 ^ 32

/-- The Umull intermediate register: 16-bit lane j holds the product of
the low-half byte lanes j. -/
def umullLow (a b : Fin 16 → Fin 256) (j : Nat) : Nat := uprod8 a b j

/-- The Umull2 intermediate register: 16-bit lane j holds the product of
the high-half byte lanes 8 + j. -/
def umullHigh (a b : Fin 16 → Fin 256) (j : Nat) : Nat := uprod8 a b (8 + j)

/-- Uaddw: accumulator lane i plus the zero-extended 16-bit lane i of the
intermediate register, modulo 2 ^ 32. -/
def uaddwLane (acc : Fin 4 → Nat) (t : Nat → Nat) (i : Fin 4) : Nat :=
  (acc i + t i.val) % 2 ^ 32

/-- Uaddw2: accumulator lane i plus the zero-extended 16-bit lane 4 + i
of the intermediate register, modulo 2 ^ 32. -/
def uaddw2Lane (acc : Fin 4 → Nat) (t : Nat → Nat) (i : Fin 4) : Nat :=
  (acc i + t (4 + i.val)) % 2 ^ 32

/-- Accumulator after the portable unsigned fallback sequence:
Umull, Uaddw, Uaddw2, Umull2, Uaddw, Uaddw2. -/
def udotFallbackLane (acc : Fin 4 → Fin (2 ^ 32)) (a b : Fin 16 → Fin 256) :
    Fin 4 → Nat :=
  let t1 := umullLow a b
  let acc0 : Fin 4 → Nat := fun i => (acc i : Nat)
  let acc1 := uaddwLane acc0 t1
  let acc2 := uaddw2Lane acc1 t1
  let t2 := umullHigh a b
  let acc3 := uaddwLane acc2 t2
  uaddw2Lane acc3 t2

/-- The Smull intermediate register: 16-bit lane j holds the bit pattern
of the signed product of the low-half byte lanes j. -/
def smullLow (a b : Fin 16 → Fin 256) (j : Nat) : Nat := bits 16 (sprod8 a b j)

/-- The Smull2 intermediate register: 16-bit lane j holds the bit pattern
of the signed product of the high-half byte lanes 8 + j. -/
def smullHigh (a b : Fin 16 → Fin 256) (j : Nat) : Nat := bits 16 (sprod8 a b (8 + j))

/-- Saddw: accumulator lane i plus the sign-extended 16-bit lane i of the
intermediate register, modulo 2 ^ 32 (on bit patterns). -/
def saddwLane (acc : Fin 4 → Nat) (t : Nat → Nat) (i : Fin 4) : Nat :=
  bits 32 ((acc i : Int) + sint 16 (t i.val))

/-- Saddw2: accumulator lane i plus the sign-extended 16-bit lane 4 + i
of the intermediate register, modulo 2 ^ 32. -/
def saddw2Lane (acc : Fin 4 → Nat) (t : Nat → Nat) (i : Fin 4) : Nat :=
  bits 32 ((acc i : Int) + sint 16 (t (4 + i.val)))

/-- Accumulator lane i after the fused Sdot: the lane accumulates the
signed products of the four consecutive source byte lanes 4i .. 4i+3,
modulo 2 ^ 32 (as a bit pattern). -/
def sdotFusedLane (acc : Fin 4 → Fin (2 ^ 32)) (a b : Fin 16 → Fin 256) (i : Fin 4) :
    Nat :=
  bits 32 ((acc i : Int) + sprod8 a b (4 * i.val) + sprod8 a b (4 * i.val + 1)
      + sprod8 a b (4 * i.val + 2) + sprod8 a b (4 * i.val + 3))

/-- Accumulator after the portable signed fallback sequence:
Smull, Saddw, Saddw2, Smull2, Saddw, Saddw2. -/
def sdotFallbackLane (acc : Fin 4 → Fin (2 ^ 32)) (a b : Fin 16 → Fin 256) :
    Fin 4 → Nat :=
  let t1 := smullLow a b
  let acc0 : Fin 4 → Nat := fun i => (acc i : Nat)
  let acc1 := saddwLane acc0 t1
  let acc2 := saddw2Lane acc1 t1
  let t2 := smullHigh a b
  let acc3 := saddwLane acc2 t2
  saddw2Lane acc3 t2

/-- The 16-bit-input dot product emission (Umlal/Umlal2 or Smlal/Smlal2):
accumulator lane i accumulates the products of the 16-bit source lanes i
and 4 + i. The source emits this one sequence without consulting the
Capability Gate. -/
def dotProd16Lane (zeroExtending : Bool) (acc : Fin 4 → Fin (2 ^ 32))
    (a b : Fin 8 → Fin (2 ^ 16)) (i : Fin 4) : Nat :=
  let lo : Fin 8 := ⟨i.val, by have := i.isLt; omega⟩
  let hi : Fin 8 := ⟨4 + i.val, by have := i.isLt; omega⟩
  if zeroExtending then
    ((acc i : Nat) + (a lo : Nat) * (b lo : Nat) + (a hi : Nat) * (b hi : Nat)) % 2 ^ 32
  else
    bits 32 ((acc i : Int) + sint 16 (a lo) * sint 16 (b lo)
      + sint 16 (a hi) * sint 16 (b hi))

/-- Sum of the four 32-bit accumulator lanes of a result. -/
def sumLanes4 (f : Fin 4 → Nat) : Nat :=
  f ⟨0, by omega⟩ + f ⟨1, by omega⟩ + f ⟨2, by omega⟩ + f ⟨3, by omega⟩

/-- Zero accumulator used by the concrete dot product counterexample. -/
def exAcc : Fin 4 → Fin (2 ^ 32) := fun _ => 0

/-- Source vector with a single one in byte lane 1, used by the concrete
dot product counterexample. -/
def exVec : Fin 16 → Fin 256 := fun j => if j.val = 1 then 1 else 0

/-! ## Sum of absolute differences accumulate (VisitVecSADAccumulate)

Each promotion pair is embedded instruction by instruction: Sabal/Sabal2
are widening signed-absolute-difference accumulates, Sxtl/Sxtl2 are
sign-extending lane widenings (modelled on bit patterns), and the
same-width pairs use the explicit Sub, Abs, Add sequence. -/

/-- The 16-bit lane j of an eight-lane source register, as a Nat. -/
def vecHalf (a : Fin 8 → Fin (2 ^ 16)) (j : Nat) : Nat :=
  (a ⟨j % 8, by omega⟩ : Nat)

/-- The 32-bit lane j of a four-lane source register, as a Nat. -/
def vecWord (a : Fin 4 → Fin (2 ^ 32)) (j : Nat) : Nat :=
  (a ⟨j % 4, by omega⟩ : Nat)

/-- The 64-bit lane j of a two-lane source register, as a Nat. -/
def vecDouble (a : Fin 2 → Fin (2 ^ 64)) (j : Nat) : Nat :=
  (a ⟨j % 2, by omega⟩ : Nat)

/-- Absolute difference of the signed readings of two w-bit lanes. -/
def sadDiff (w x y : Nat) : Nat := (sint w x - sint w y).natAbs

/-- One Sabal/Sabal2 accumulation: the destination lane (width dw) plus
the absolute difference of the signed sw-bit source lanes, modulo
2 ^ dw. -/
def sabalStep (dw sw acc x y : Nat) : Nat := (acc + sadDiff sw x y) % 2 ^ dw

/-- Sxtl of the low eight byte lanes into eight 16-bit lanes (bit
patterns of the sign extensions). -/
def sxtl8Low (a : Fin 16 → Fin 256) (j : Nat) : Nat := bits 16 (sint 8 (vecByte a j))

/-- Sxtl2 of the high eight byte lanes into eight 16-bit lanes. -/
def sxtl8High (a : Fin 16 → Fin 256) (j : Nat) : Nat :=
  bits 16 (sint 8 (vecByte a (8 + j)))

/-- Sxtl of the low four 16-bit lanes into four 32-bit lanes. -/
def sxtl16Low (t : Nat → Nat) (j : Nat) : Nat := bits 32 (sint 16 (t j))

/-- Sxtl2 of the high four 16-bit lanes into four 32-bit lanes. -/
def sxtl16High (t : Nat → Nat) (j : Nat) : Nat := bits 32 (sint 16 (t (4 + j)))

/-- SAD accumulate, 8-bit sources into 16-bit lanes: Sabal then Sabal2
(no scratch registers). -/
def sad8to16 (acc : Fin 8 → Fin (2 ^ 16)) (a b : Fin 16 → Fin 256) (i : Fin 8) :
    Nat :=
  let s1 := sabalStep 16 8 (acc i) (vecByte a i.val) (vecByte b i.val)
  sabalStep 16 8 s1 (vecByte a (8 + i.val)) (vecByte b (8 + i.val))

/-- SAD accumulate, 8-bit sources into 32-bit lanes: Sxtl both sources
into the two scratch registers, Sabal and Sabal2 on their halves, then
Sxtl2 and the other two accumulates. -/
def sad8to32 (acc : Fin 4 → Fin (2 ^ 32)) (a b : Fin 16 → Fin 256) (i : Fin 4) :
    Nat :=
  let t1 := sxtl8Low a
  let t2 := sxtl8Low b
  let s1 := sabalStep 32 16 (acc i) (t1 i.val) (t2 i.val)
  let s2 := sabalStep 32 16 s1 (t1 (4 + i.val)) (t2 (4 + i.val))
  let t1h := sxtl8High a
  let t2h := sxtl8High b
  let s3 := sabalStep 32 16 s2 (t1h i.val) (t2h i.val)
  sabalStep 32 16 s3 (t1h (4 + i.val)) (t2h (4 + i.val))

/-- SAD accumulate, 8-bit sources into 64-bit lanes: two levels of sign
extension through the four scratch registers, with eight Sabal/Sabal2
accumulates. -/
def sad8to64 (acc : Fin 2 → Fin (2 ^ 64)) (a b : Fin 16 → Fin 256) (i : Fin 2) :
    Nat :=
  let t1 := sxtl8Low a
  let t2 := sxtl8Low b
  let t3 := sxtl16Low t1
  let t4 := sxtl16Low t2
  let s1 := sabalStep 64 32 (acc i) (t3 i.val) (t4 i.val)
  let s2 := sabalStep 64 32 s1 (t3 (2 + i.val)) (t4 (2 + i.val))
  let t3b := sxtl16High t1
  let t4b := sxtl16High t2
  let s3 := sabalStep 64 32 s2 (t3b i.val) (t4b i.val)
  let s4 := sabalStep 64 32 s3 (t3b (2 + i.val)) (t4b (2 + i.val))
  let u1 := sxtl8High a
  let u2 := sxtl8High b
  let u3 := sxtl16Low u1
  let u4 := sxtl16Low u2
  let s5 := sabalStep 64 32 s4 (u3 i.val) (u4 i.val)
  let s6 := sabalStep 64 32 s5 (u3 (2 + i.val)) (u4 (2 + i.val))
  let u3b := sxtl16High u1
  let u4b := sxtl16High u2
  let s7 := sabalStep 64 32 s6 (u3b i.val) (u4b i.val)
  sabalStep 64 32 s7 (u3b (2 + i.val)) (u4b (2 + i.val))

/-- SAD accumulate, 16-bit sources into 32-bit lanes: Sabal then Sabal2
directly on the sources. -/
def sad16to32 (acc : Fin 4 → Fin (2 ^ 32)) (a b : Fin 8 → Fin (2 ^ 16)) (i : Fin 4) :
    Nat :=
  let s1 := sabalStep 32 16 (acc i) (vecHalf a i.val) (vecHalf b i.val)
  sabalStep 32 16 s1 (vecHalf a (4 + i.val)) (vecHalf b (4 + i.val))

/-- SAD accumulate, 16-bit sources into 64-bit lanes: Sxtl both sources
into the two scratch registers, accumulate, then Sxtl2 and accumulate
again. -/
def sad16to64 (acc : Fin 2 → Fin (2 ^ 64)) (a b : Fin 8 → Fin (2 ^ 16)) (i : Fin 2) :
    Nat :=
  let t1 := sxtl16Low (vecHalf a)
  let t2 := sxtl16Low (vecHalf b)
  let s1 := sabalStep 64 32 (acc i) (t1 i.val) (t2 i.val)
  let s2 := sabalStep 64 32 s1 (t1 (2 + i.val)) (t2 (2 + i.val))
  let t1h := sxtl16High (vecHalf a)
  let t2h := sxtl16High (vecHalf b)
  let s3 := sabalStep 64 32 s2 (t1h i.val) (t2h i.val)
  sabalStep 64 32 s3 (t1h (2 + i.val)) (t2h (2 + i.val))

/-- SAD accumulate, 32-bit sources into 64-bit lanes: Sabal then Sabal2
directly on the sources (no scratch registers). -/
def sad32to64 (acc : Fin 2 → Fin (2 ^ 64)) (a b : Fin 4 → Fin (2 ^ 32)) (i : Fin 2) :
    Nat :=
  let s1 := sabalStep 64 32 (acc i) (vecWord a i.val) (vecWord b i.val)
  sabalStep 64 32 s1 (vecWord a (2 + i.val)) (vecWord b (2 + i.val))

/-- Lane-wise Sub on w-bit bit patterns (wrap-around). -/
def subLane (w x y : Nat) : Nat := bits w ((x : Int) - (y : Int))

/-- Lane-wise Abs on a w-bit bit pattern: two's complement absolute value
(the most negative value maps to itself). -/
def absLane (w v : Nat) : Nat := bits w ((sint w v).natAbs : Int)

/-- Lane-wise Add on w-bit bit patterns (wrap-around). -/
def addLane (w x y : Nat) : Nat := (x + y) % 2 ^ w

/-- SAD accumulate for the same-width 32-bit pair: the explicit Sub, Abs,
Add sequence through the single scratch register. -/
def sad32to32 (acc a b : Fin 4 → Fin (2 ^ 32)) (i : Fin 4) : Nat :=
  addLane 32 (acc i) (absLane 32 (subLane 32 (a i) (b i)))

/-- SAD accumulate for the same-width 64-bit pair: the explicit Sub, Abs,
Add sequence through the single scratch register. -/
def sad64to64 (acc a b : Fin 2 → Fin (2 ^ 64)) (i : Fin 2) : Nat :=
  addLane 64 (acc i) (absLane 64 (subLane 64 (a i) (b i)))

/-- Scratch vector registers reserved by the VisitVecSADAccumulate
Location Planner (the AddTemp calls in LocationsBuilderARM64Sve), as a
function of the source packed type and the accumulator packed type; none
when the shared CreateVecAccumLocations helper is fatal on the
accumulator type. The outer source-type switch defaults silently to zero
extra registers. -/
def sadPlannerTemps (src dst : VType) : Option Nat :=
  if accumPlannerAccepts dst then
    some (match src, dst with
      | .kUint8, .kInt64 => 4
      | .kInt8, .kInt64 => 4
      | .kUint8, .kInt32 => 2
      | .kInt8, .kInt32 => 2
      | .kUint16, .kInt64 => 2
      | .kInt16, .kInt64 => 2
      | .kInt32, .kInt32 => 1
      | .kInt64, .kInt64 => 1
      | _, _ => 0)
  else none

/-- Scratch vector registers the VisitVecSADAccumulate Instruction
Emitter consumes (the distinct GetTemp indices it reads) for each
source/accumulator packed type pair; none models the LOG(FATAL)
branches for pairs outside the support matrix. -/
def sadEmitterTemps (src dst : VType) : Option Nat :=
  match src, dst with
  | .kUint8, .kInt16 => some 0
  | .kInt8, .kInt16 => some 0
  | .kUint8, .kInt32 => some 2
  | .kInt8, .kInt32 => some 2
  | .kUint8, .kInt64 => some 4
  | .kInt8, .kInt64 => some 4
  | .kUint16, .kInt32 => some 0
  | .kInt16, .kInt32 => some 0
  | .kUint16, .kInt64 => some 2
  | .kInt16, .kInt64 => some 2
  | .kInt32, .kInt32 => some 1
  | .kInt32, .kInt64 => some 0
  | .kInt64, .kInt64 => some 1
  | _, _ => none

/-- Zero accumulator for the same-width SAD counterexample. -/
def exAcc32 : Fin 4 → Fin (2 ^ 32) := fun _ => 0

/-- Source whose 32-bit lanes hold the largest positive signed value
0x7FFFFFFF. -/
def exMaxPos32 : Fin 4 → Fin (2 ^ 32) := fun _ => ⟨2147483647, by norm_num⟩

/-- Source whose 32-bit lanes hold the most negative signed value
0x80000000. -/
def exMinNeg32 : Fin 4 → Fin (2 ^ 32) := fun _ => ⟨2147483648, by norm_num⟩

/-- Zero two-lane 64-bit vector used by the witness of the amended SAD
theorem. -/
def exZero64 : Fin 2 → Fin (2 ^ 64) := fun _ => 0

/-! ## Compressed-string vector load (VisitVecLoad, StringCharAt path)

The output register is modelled at byte granularity (sixteen byte
positions). Memory is an abstract byte array starting at the computed
element address. -/

/-- Register bytes after the 64-bit Ldr of the compressed branch: the
eight bytes at the address in the low half, and zero in the high half (a
64-bit load zeroes the upper half of the vector register). -/
def ldrDBytes (mem : Nat → Fin 256) (j : Fin 16) : Nat :=
  if j.val < 8 then (mem j.val : Nat) else 0

/-- Register bytes after the 128-bit Ldr of the uncompressed branch. -/
def ldrQBytes (mem : Nat → Fin 256) (j : Fin 16) : Nat := (mem j.val : Nat)

/-- Register bytes after Uxtl of the low eight byte lanes into eight
16-bit lanes, in place: 16-bit lane k holds the zero-extension of source
byte k, so byte 2k is that byte and byte 2k + 1 is zero. -/
def uxtlBytes (r : Fin 16 → Nat) (j : Fin 16) : Nat :=
  if j.val % 2 = 0 then r ⟨j.val / 2, by have := j.isLt; omega⟩ % 256 else 0

/-- The 16-bit lane i of a register given by its bytes (little endian). -/
def reg16Lane (r : Fin 16 → Nat) (i : Fin 8) : Nat :=
  r ⟨2 * i.val, by have := i.isLt; omega⟩
    + 256 * r ⟨2 * i.val + 1, by have := i.isLt; omega⟩

/-- Output register of the VisitVecLoad compressed-string path as a
function of the count header field and of memory. Tbnz branches on bit 0
of count (0 means compressed per the static_assert): when it is set, the
uncompressed branch does the direct 128-bit load of eight 16-bit chars;
otherwise the compressed branch does the 64-bit load of eight bytes
followed by Uxtl. Both branches fall through to the same bound label
with the result in the same output register. -/
def vecLoadStringBytes (count : Nat) (mem : Nat → Fin 256) : Fin 16 → Nat :=
  if count % 2 = 1 then ldrQBytes mem else uxtlBytes (ldrDBytes mem)

/-! ## Scratch-register scope traces

Each emission routine that opens a UseScratchRegisterScope is abstracted
to its sequence of scratch acquire and release events, in emission
order; scopeExit is the destructor of the scope object, which runs on
every C++ return path of the routine and releases whatever the scope
still holds. -/

/-- Events on the scoped scratch-register pool. -/
inductive SEvent
  | acquire | release | scopeExit
deriving DecidableEq, Repr

/-- Runs a list of scratch events, counting held scratch resources: a
release with nothing held fails (none); the scope destructor releases
everything still held. The result is the number of resources still
acquired after the routine returns. -/
def runScratch : List SEvent → Nat → Option Nat
  | [], n => some n
  | SEvent.acquire :: es, n => runScratch es (n + 1)
  | SEvent.release :: es, n => if n = 0 then none else runScratch es (n - 1)
  | SEvent.scopeExit :: es, _ => runScratch es 0

/-- Scratch events of the VisitVecLoad compressed-string path, in
emission order: AcquireW of the length register and its explicit
Release; the scratch possibly acquired by the first VecNeonAddress call
(s1) and its conditional Release guarded by scratch.IsValid; the scratch
possibly acquired by the second VecNeonAddress call (s2), which has no
explicit Release; then the early return, running the scope destructor. -/
def vecLoadStringTrace (s1 s2 : Bool) : List SEvent :=
  [SEvent.acquire, SEvent.release]
    ++ (if s1 then [SEvent.acquire, SEvent.release] else [])
    ++ (if s2 then [SEvent.acquire] else [])
    ++ [SEvent.scopeExit]

/-- Scratch events of the plain VisitVecLoad path: the scratch possibly
acquired by VecNeonAddress, released only by the scope destructor at
return. -/
def vecLoadPlainTrace (s : Bool) : List SEvent :=
  (if s then [SEvent.acquire] else []) ++ [SEvent.scopeExit]

/-- Scratch events of VisitVecStore: the scratch possibly acquired by
VecNeonAddress, released only by the scope destructor at return. -/
def vecStoreTrace (s : Bool) : List SEvent :=
  (if s then [SEvent.acquire] else []) ++ [SEvent.scopeExit]

/-- Scratch events of MoveToSIMDStackSlot: nothing for a register
source; for a stack-slot source, one scratch (an X register when the
scratch vector list is empty, a V register otherwise), released only by
the scope destructor. -/
def moveToSIMDStackSlotTrace (srcIsFpuRegister vlistEmpty : Bool) : List SEvent :=
  if srcIsFpuRegister then [SEvent.scopeExit]
  else if vlistEmpty then [SEvent.acquire, SEvent.scopeExit]
  else [SEvent.acquire, SEvent.scopeExit]

/-! ## Helper lemmas about sint and bits -/

theorem bits_lt (w : Nat) (x : Int) : bits w x < 2 ^ w := by
  have hcast : ((2 ^ w : Nat) : Int) = 2 ^ w := by push_cast; ring
  have hpos : (0 : Int) < 2 ^ w := by positivity
  have h1 := Int.emod_nonneg x (ne_of_gt hpos)
  have h2 := Int.emod_lt_of_pos x hpos
  simp only [bits]
  omega

theorem sint_bounds_8 (v : Nat) (h : v < 256) :
    -128 ≤ sint 8 v ∧ sint 8 v < 128 := by
  simp only [sint]
  norm_num
  split <;> omega

theorem sint_bounds_16 (v : Nat) (h : v < 65536) :
    -32768 ≤ sint 16 v ∧ sint 16 v < 32768 := by
  simp only [sint]
  norm_num
  split <;> omega

theorem sint_bits_8 (x : Int) (h1 : -128 ≤ x) (h2 : x < 128) :
    sint 8 (bits 8 x) = x := by
  simp only [sint, bits]
  norm_num
  split <;> omega

theorem sint_bits_16 (x : Int) (h1 : -32768 ≤ x) (h2 : x < 32768) :
    sint 16 (bits 16 x) = x := by
  simp only [sint, bits]
  norm_num
  split <;> omega

theorem sint_bits_32 (x : Int) (h1 : -2147483648 ≤ x) (h2 : x < 2147483648) :
    sint 32 (bits 32 x) = x := by
  simp only [sint, bits]
  norm_num
  split <;> omega

theorem sint_bits_64 (x : Int) (h1 : -9223372036854775808 ≤ x)
    (h2 : x < 9223372036854775808) : sint 64 (bits 64 x) = x := by
  simp only [sint, bits]
  norm_num
  split <;> omega

/-! ## C2 -/

/-- C2 counterexample: the Instruction Emitter for multiply-accumulate is
fatal on Int64 (its switch stops at 32-bit lanes) while the Location
Planner helper CreateVecAccumLocations accepts Int64 and builds a
constraint record for it, so a combination on which the Emitter fails
fatally is silently accepted by the Planner. -/
theorem mulAccPlannerAcceptsWhatEmitterRejects :
    accumPlannerAccepts VType.kInt64 = true ∧
      mulAccEmitterAccepts VType.kInt64 = false := by
  decide

/-- C2 (amended): for multiply-accumulate, division and conversion the
inclusion runs the other way around: every operation-kind/element-type
combination the Instruction Emitter accepts is accepted by the Location
Planner, but the Planner accepted sets are strictly larger — the Planner
accepts Int64 multiply-accumulate, integer division (for example Int32),
and conversions other than Int32 to Float32 (for example any conversion
producing Float64), all of which the Emitter rejects fatally. -/
theorem plannerEmitterSupportSets :
    (∀ t : VType, (mulAccEmitterAccepts t && !accumPlannerAccepts t) = false) ∧
    (∀ t : VType, (divEmitterAccepts t && !binOpPlannerAccepts t) = false) ∧
    (∀ s d : VType, (cnvEmitterAccepts s d && !unOpPlannerAccepts d) = false) ∧
    accumPlannerAccepts VType.kInt64 = true ∧
    mulAccEmitterAccepts VType.kInt64 = false ∧
    binOpPlannerAccepts VType.kInt32 = true ∧
    divEmitterAccepts VType.kInt32 = false ∧
    unOpPlannerAccepts VType.kFloat64 = true ∧
    cnvEmitterAccepts VType.kInt32 VType.kFloat64 = false := by
  decide

/-! ## C8 -/

/-- C8: VisitVecReduce emits a reduction exactly for 32-bit lanes (sum,
min and max, via the direct horizontal Addv, Sminv, Smaxv) and for the
64-bit sum, which is emitted as the pairwise add Addp rather than a
direct horizontal sum; 64-bit min and max and every other element type
fail fatally. -/
theorem vecReduceSupportMatrix :
    (∀ (k : RedKind) (t : VType),
        (reduceInstr k t).isSome =
          (t == VType.kInt32 || (t == VType.kInt64 && k == RedKind.sum))) ∧
    reduceInstr RedKind.sum VType.kInt64 = some RedInstr.addp ∧
    reduceInstr RedKind.sum VType.kInt32 = some RedInstr.addv ∧
    reduceInstr RedKind.rmin VType.kInt32 = some RedInstr.sminv ∧
    reduceInstr RedKind.rmax VType.kInt32 = some RedInstr.smaxv ∧
    reduceInstr RedKind.rmin VType.kInt64 = none ∧
    reduceInstr RedKind.rmax VType.kInt64 = none := by
  decide

/-! ## C9 -/

/-- C9: the constraint record built by CreateVecUnOpLocations allows the
output to overlap the input exactly for a logical-not over the
boolean-packed element type; every other accepted unary
operation/element-type combination gets a non-overlapping output. -/
theorem unOpOutputOverlapOnlyBoolNot :
    ∀ (k : UnOpKind) (t : VType),
      (unOpOutOverlap k t = some true) ↔ (k = UnOpKind.bnot ∧ t = VType.kBool) := by
  decide

/-! ## C6 -/

set_option maxRecDepth 4096 in
/-- C6: for the boolean-packed element type VisitVecNot emits Movi of one
and Eor, so a 0 or 1 byte lane maps to its logical complement in 0 and 1
(never 0xFE); for the integer element types it emits Not, the plain
bitwise complement of every byte. -/
theorem vecNotBoolAndInt :
    (∀ v : Fin 2, vecNotLane VType.kBool v.val = some (1 - v.val)) ∧
    (∀ v : Fin 256, vecNotLane VType.kUint8 v.val = some (255 - v.val)) ∧
    (∀ v : Fin 256, vecNotLane VType.kInt8 v.val = some (255 - v.val)) ∧
    (∀ v : Fin 256, vecNotLane VType.kUint16 v.val = some (255 - v.val)) ∧
    (∀ v : Fin 256, vecNotLane VType.kInt16 v.val = some (255 - v.val)) ∧
    (∀ v : Fin 256, vecNotLane VType.kInt32 v.val = some (255 - v.val)) ∧
    (∀ v : Fin 256, vecNotLane VType.kInt64 v.val = some (255 - v.val)) ∧
    vecNotLane VType.kFloat32 0 = none ∧
    vecNotLane VType.kFloat64 0 = none := by
  decide

/-! ## C10 -/

/-- C10: every emission routine that acquires scratch registers from the
scoped pool ends with zero acquired-but-unreleased scratch resources on
every control path (for all combinations of the path conditions: whether
each VecNeonAddress call needs a scratch, whether the source of the
stack-slot move is a register, and whether the scratch vector list is
empty), and no trace releases a resource it does not hold. -/
theorem scratchScopesBalanced :
    (∀ s1 s2 : Bool, runScratch (vecLoadStringTrace s1 s2) 0 = some 0) ∧
    (∀ s : Bool, runScratch (vecLoadPlainTrace s) 0 = some 0) ∧
    (∀ s : Bool, runScratch (vecStoreTrace s) 0 = some 0) ∧
    (∀ f e : Bool, runScratch (moveToSIMDStackSlotTrace f e) 0 = some 0) := by
  decide

/-! ## C3 -/

theorem sintBitsClamp8 (s : Int) :
    sint 8 (bits 8 (clampS 8 s)) = max (-128) (min 127 s) := by
  have h : clampS 8 s = max (-128) (min 127 s) := by norm_num [clampS]
  rw [h]
  exact sint_bits_8 _ (by omega) (by omega)

theorem sintBitsClamp16 (s : Int) :
    sint 16 (bits 16 (clampS 16 s)) = max (-32768) (min 32767 s) := by
  have h : clampS 16 s = max (-32768) (min 32767 s) := by norm_num [clampS]
  rw [h]
  exact sint_bits_16 _ (by omega) (by omega)

/-- C3: for every 8- and 16-bit lane pair, saturating add and subtract
equal the exact sum and difference clamped to the declared range: the
unsigned types select Uqadd/Uqsub, which clamp to the unsigned range,
and the signed types select Sqadd/Sqsub, which clamp to the signed
two's complement range; in particular unsigned 8-bit saturating add of
200 and 100 yields 255. -/
theorem vecSaturationClamps :
    (∀ x y : Fin 256,
        satAddLane VType.kUint8 x.val y.val = some (min (x.val + y.val) 255)) ∧
    (∀ x y : Fin 256,
        (satAddLane VType.kInt8 x.val y.val).map (sint 8) =
          some (max (-128) (min 127 (sint 8 x.val + sint 8 y.val)))) ∧
    (∀ x y : Fin 65536,
        satAddLane VType.kUint16 x.val y.val = some (min (x.val + y.val) 65535)) ∧
    (∀ x y : Fin 65536,
        (satAddLane VType.kInt16 x.val y.val).map (sint 16) =
          some (max (-32768) (min 32767 (sint 16 x.val + sint 16 y.val)))) ∧
    (∀ x y : Fin 256,
        satSubLane VType.kUint8 x.val y.val =
          some ((max 0 ((x.val : Int) - (y.val : Int))).toNat)) ∧
    (∀ x y : Fin 256,
        (satSubLane VType.kInt8 x.val y.val).map (sint 8) =
          some (max (-128) (min 127 (sint 8 x.val - sint 8 y.val)))) ∧
    (∀ x y : Fin 65536,
        satSubLane VType.kUint16 x.val y.val =
          some ((max 0 ((x.val : Int) - (y.val : Int))).toNat)) ∧
    (∀ x y : Fin 65536,
        (satSubLane VType.kInt16 x.val y.val).map (sint 16) =
          some (max (-32768) (min 32767 (sint 16 x.val - sint 16 y.val)))) ∧
    satAddLane VType.kUint8 200 100 = some 255 := by
  refine ⟨fun x y => ?_, fun x y => ?_, fun x y => ?_, fun x y => ?_,
    fun x y => ?_, fun x y => ?_, fun x y => ?_, fun x y => ?_, by decide⟩
  · norm_num [satAddLane, uqadd]
  · simpa [satAddLane, sqadd] using sintBitsClamp8 (sint 8 x.val + sint 8 y.val)
  · norm_num [satAddLane, uqadd]
  · simpa [satAddLane, sqadd] using sintBitsClamp16 (sint 16 x.val + sint 16 y.val)
  · simp only [satSubLane, uqsub, Option.some.injEq]
    omega
  · simpa [satSubLane, sqsub] using sintBitsClamp8 (sint 8 x.val - sint 8 y.val)
  · simp only [satSubLane, uqsub, Option.some.injEq]
    omega
  · simpa [satSubLane, sqsub] using sintBitsClamp16 (sint 16 x.val - sint 16 y.val)

/-! ## C5 -/

theorem fdiv_two (s : Int) : s.fdiv 2 = s / 2 :=
  Int.fdiv_eq_ediv _ (by norm_num)

/-- C5: for every halving add over 8- and 16-bit lanes, signed or
unsigned, the non-rounded variant yields the floor of half the exact sum
and the rounded variant adds the parity of the sum to that floor, which
is the ceiling; hence the two variants differ by exactly one on odd sums
and agree on even sums. On integers, division by the positive constant
two is Euclidean division, which is the floor. -/
theorem vecHalvingAddRounding :
    (∀ x y : Fin 256,
        halvingAddLane VType.kUint8 false x.val y.val =
          some ((x.val + y.val) / 2) ∧
        halvingAddLane VType.kUint8 true x.val y.val =
          some ((x.val + y.val) / 2 + (x.val + y.val) % 2)) ∧
    (∀ x y : Fin 65536,
        halvingAddLane VType.kUint16 false x.val y.val =
          some ((x.val + y.val) / 2) ∧
        halvingAddLane VType.kUint16 true x.val y.val =
          some ((x.val + y.val) / 2 + (x.val + y.val) % 2)) ∧
    (∀ x y : Fin 256,
        (halvingAddLane VType.kInt8 false x.val y.val).map (sint 8) =
          some ((sint 8 x.val + sint 8 y.val) / 2) ∧
        (halvingAddLane VType.kInt8 true x.val y.val).map (sint 8) =
          some ((sint 8 x.val + sint 8 y.val) / 2
            + (sint 8 x.val + sint 8 y.val) % 2)) ∧
    (∀ x y : Fin 65536,
        (halvingAddLane VType.kInt16 false x.val y.val).map (sint 16) =
          some ((sint 16 x.val + sint 16 y.val) / 2) ∧
        (halvingAddLane VType.kInt16 true x.val y.val).map (sint 16) =
          some ((sint 16 x.val + sint 16 y.val) / 2
            + (sint 16 x.val + sint 16 y.val) % 2)) := by
  refine ⟨fun x y => ⟨?_, ?_⟩, fun x y => ⟨?_, ?_⟩, fun x y => ⟨?_, ?_⟩,
    fun x y => ⟨?_, ?_⟩⟩
  · simp [halvingAddLane, uhadd]
  · simp only [halvingAddLane, urhadd, if_true]
    congr 1
    omega
  · simp [halvingAddLane, uhadd]
  · simp only [halvingAddLane, urhadd, if_true]
    congr 1
    omega
  · have hx := sint_bounds_8 x.val x.isLt
    have hy := sint_bounds_8 y.val y.isLt
    simp only [halvingAddLane, shadd, fdiv_two, Bool.false_eq_true, if_false,
      Option.map_some']
    rw [sint_bits_8 _ (by omega) (by omega)]
  · have hx := sint_bounds_8 x.val x.isLt
    have hy := sint_bounds_8 y.val y.isLt
    simp only [halvingAddLane, srhadd, fdiv_two, if_true, Option.map_some']
    rw [sint_bits_8 _ (by omega) (by omega)]
    congr 1
    omega
  · have hx := sint_bounds_16 x.val x.isLt
    have hy := sint_bounds_16 y.val y.isLt
    simp only [halvingAddLane, shadd, fdiv_two, Bool.false_eq_true, if_false,
      Option.map_some']
    rw [sint_bits_16 _ (by omega) (by omega)]
  · have hx := sint_bounds_16 x.val x.isLt
    have hy := sint_bounds_16 y.val y.isLt
    simp only [halvingAddLane, srhadd, fdiv_two, if_true, Option.map_some']
    rw [sint_bits_16 _ (by omega) (by omega)]
    congr 1
    omega

/-! ## C7 -/

/-- C7: the compressed-string VisitVecLoad path tests bit 0 of the count
header field at run time: when it is clear (compressed) the output
register holds the zero-extension of the eight raw bytes into eight
16-bit lanes, each lane below 256 (zero upper byte, no residual
garbage); when it is set (uncompressed) it holds the eight 16-bit values
loaded directly; both branches deliver the value in the same output
register at the common join label. -/
theorem vecLoadStringCompressed :
    ∀ (c : Nat) (mem : Nat → Fin 256) (i : Fin 8),
      reg16Lane (vecLoadStringBytes (2 * c) mem) i = (mem i.val : Nat) ∧
      reg16Lane (vecLoadStringBytes (2 * c) mem) i < 256 ∧
      reg16Lane (vecLoadStringBytes (2 * c + 1) mem) i =
        (mem (2 * i.val) : Nat) + 256 * (mem (2 * i.val + 1) : Nat) := by
  intro c mem i
  have hi := i.isLt
  have hcomp : reg16Lane (vecLoadStringBytes (2 * c) mem) i = (mem i.val : Nat) := by
    simp [vecLoadStringBytes, reg16Lane, uxtlBytes, ldrDBytes, Nat.mul_mod_right,
      Nat.mul_add_mod, Nat.mul_div_cancel_left, hi,
      Nat.mod_eq_of_lt (mem i.val).isLt]
  refine ⟨hcomp, by rw [hcomp]; exact (mem i.val).isLt, ?_⟩
  simp [vecLoadStringBytes, reg16Lane, ldrQBytes, Nat.mul_add_mod]

/-! ## C1 -/

theorem sprod8_bounds (a b : Fin 16 → Fin 256) (j : Nat) :
    -16384 ≤ sprod8 a b j ∧ sprod8 a b j ≤ 16384 := by
  have ha := sint_bounds_8 (vecByte a j) (a ⟨j % 16, by omega⟩).isLt
  have hb := sint_bounds_8 (vecByte b j) (b ⟨j % 16, by omega⟩).isLt
  have hna : (sint 8 (vecByte a j)).natAbs ≤ 128 := by omega
  have hnb : (sint 8 (vecByte b j)).natAbs ≤ 128 := by omega
  have habs : (sprod8 a b j).natAbs =
      (sint 8 (vecByte a j)).natAbs * (sint 8 (vecByte b j)).natAbs :=
    Int.natAbs_mul _ _
  have hmul : (sint 8 (vecByte a j)).natAbs * (sint 8 (vecByte b j)).natAbs ≤ 16384 :=
    Nat.mul_le_mul hna hnb
  omega

theorem sint_bits_sprod8 (a b : Fin 16 → Fin 256) (j : Nat) :
    sint 16 (bits 16 (sprod8 a b j)) = sprod8 a b j := by
  have h := sprod8_bounds a b j
  exact sint_bits_16 _ (by omega) (by omega)

/-- C1 counterexample: with a zero accumulator and both sources holding a
single one in byte lane 1, the fused Udot path puts the product into
accumulator lane 0 (it groups source lanes 0..3) while the portable
fallback puts it into lane 1 (it groups source lanes 1, 5, 9, 13), so
the 32-bit accumulator lane results of the two paths are not
bit-identical. -/
theorem dotProdLaneMismatch :
    udotFusedLane exAcc exVec exVec ⟨0, by omega⟩ ≠
      udotFallbackLane exAcc exVec exVec ⟨0, by omega⟩ := by
  decide

theorem h84_addNat (n : Nat) : 8 + (4 + n) = 12 + n := by omega

theorem udotFallback_closed (acc : Fin 4 → Fin (2 ^ 32)) (a b : Fin 16 → Fin 256)
    (i : Fin 4) :
    udotFallbackLane acc a b i =
      ((acc i : Nat) + uprod8 a b i.val + uprod8 a b (4 + i.val)
        + uprod8 a b (8 + i.val) + uprod8 a b (12 + i.val)) % 2 ^ 32 := by
  simp only [udotFallbackLane, uaddwLane, uaddw2Lane, umullLow, umullHigh,
    h84_addNat]
  omega

theorem sdotFallback_closed (acc : Fin 4 → Fin (2 ^ 32)) (a b : Fin 16 → Fin 256)
    (i : Fin 4) :
    sdotFallbackLane acc a b i =
      bits 32 ((acc i : Int) + sprod8 a b i.val + sprod8 a b (4 + i.val)
        + sprod8 a b (8 + i.val) + sprod8 a b (12 + i.val)) := by
  simp only [sdotFallbackLane, saddwLane, saddw2Lane, smullLow, smullHigh]
  simp only [sint_bits_sprod8, h84_addNat]
  simp only [bits]
  omega

set_option maxHeartbeats 1000000 in
/-- C1 (amended): for 8-bit inputs the fused path and the portable
fallback agree on the sum of the four 32-bit accumulator lanes modulo
2 ^ 32 (each source product is accumulated exactly once on both paths,
in both the zero-extending and the sign-extending variant), but not lane
by lane: the fused instruction folds source lanes 4i..4i+3 into
accumulator lane i while the fallback folds lanes i, i+4, i+8, i+12 into
lane i, as the closed forms below show. For 16-bit inputs the source
emits a single sequence without consulting the Capability Gate. -/
theorem dotProdPathsAgreeOnLaneSum :
    (∀ (acc : Fin 4 → Fin (2 ^ 32)) (a b : Fin 16 → Fin 256) (i : Fin 4),
        udotFallbackLane acc a b i =
          ((acc i : Nat) + uprod8 a b i.val + uprod8 a b (4 + i.val)
            + uprod8 a b (8 + i.val) + uprod8 a b (12 + i.val)) % 2 ^ 32) ∧
    (∀ (acc : Fin 4 → Fin (2 ^ 32)) (a b : Fin 16 → Fin 256),
        sumLanes4 (udotFusedLane acc a b) % 2 ^ 32 =
          sumLanes4 (udotFallbackLane acc a b) % 2 ^ 32) ∧
    (∀ (acc : Fin 4 → Fin (2 ^ 32)) (a b : Fin 16 → Fin 256) (i : Fin 4),
        sdotFallbackLane acc a b i =
          bits 32 ((acc i : Int) + sprod8 a b i.val + sprod8 a b (4 + i.val)
            + sprod8 a b (8 + i.val) + sprod8 a b (12 + i.val))) ∧
    (∀ (acc : Fin 4 → Fin (2 ^ 32)) (a b : Fin 16 → Fin 256),
        sumLanes4 (sdotFusedLane acc a b) % 2 ^ 32 =
          sumLanes4 (sdotFallbackLane acc a b) % 2 ^ 32) := by
  refine ⟨udotFallback_closed, fun acc a b => ?_, sdotFallback_closed,
    fun acc a b => ?_⟩
  · simp only [sumLanes4, udotFusedLane, udotFallback_closed]
    norm_num
    omega
  · simp only [sumLanes4, sdotFusedLane, sdotFallback_closed]
    simp only [Nat.reduceMul, Nat.reduceAdd]
    simp only [bits]
    omega

/-! ## C4 -/

theorem vecByte_lt (a : Fin 16 → Fin 256) (j : Nat) : vecByte a j < 256 :=
  (a ⟨j % 16, by omega⟩).isLt

theorem vecHalf_lt (a : Fin 8 → Fin (2 ^ 16)) (j : Nat) : vecHalf a j < 65536 :=
  (a ⟨j % 8, by omega⟩).isLt

theorem sint16_sxtl8Low (a : Fin 16 → Fin 256) (j : Nat) :
    sint 16 (sxtl8Low a j) = sint 8 (vecByte a j) := by
  have h := sint_bounds_8 (vecByte a j) (vecByte_lt a j)
  exact sint_bits_16 _ (by omega) (by omega)

theorem sint16_sxtl8High (a : Fin 16 → Fin 256) (j : Nat) :
    sint 16 (sxtl8High a j) = sint 8 (vecByte a (8 + j)) := by
  have h := sint_bounds_8 (vecByte a (8 + j)) (vecByte_lt a (8 + j))
  exact sint_bits_16 _ (by omega) (by omega)

theorem sint32_sxtl16Low_sxtl8Low (a : Fin 16 → Fin 256) (j : Nat) :
    sint 32 (sxtl16Low (sxtl8Low a) j) = sint 8 (vecByte a j) := by
  have h := sint_bounds_8 (vecByte a j) (vecByte_lt a j)
  simp only [sxtl16Low, sint16_sxtl8Low]
  exact sint_bits_32 _ (by omega) (by omega)

theorem sint32_sxtl16High_sxtl8Low (a : Fin 16 → Fin 256) (j : Nat) :
    sint 32 (sxtl16High (sxtl8Low a) j) = sint 8 (vecByte a (4 + j)) := by
  have h := sint_bounds_8 (vecByte a (4 + j)) (vecByte_lt a (4 + j))
  simp only [sxtl16High, sint16_sxtl8Low]
  exact sint_bits_32 _ (by omega) (by omega)

theorem sint32_sxtl16Low_sxtl8High (a : Fin 16 → Fin 256) (j : Nat) :
    sint 32 (sxtl16Low (sxtl8High a) j) = sint 8 (vecByte a (8 + j)) := by
  have h := sint_bounds_8 (vecByte a (8 + j)) (vecByte_lt a (8 + j))
  simp only [sxtl16Low, sint16_sxtl8High]
  exact sint_bits_32 _ (by omega) (by omega)

theorem sint32_sxtl16High_sxtl8High (a : Fin 16 → Fin 256) (j : Nat) :
    sint 32 (sxtl16High (sxtl8High a) j) = sint 8 (vecByte a (12 + j)) := by
  have h := sint_bounds_8 (vecByte a (12 + j)) (vecByte_lt a (12 + j))
  simp only [sxtl16High, sint16_sxtl8High, h84_addNat]
  exact sint_bits_32 _ (by omega) (by omega)

theorem sint32_sxtl16Low_vecHalf (a : Fin 8 → Fin (2 ^ 16)) (j : Nat) :
    sint 32 (sxtl16Low (vecHalf a) j) = sint 16 (vecHalf a j) := by
  have h := sint_bounds_16 (vecHalf a j) (vecHalf_lt a j)
  simp only [sxtl16Low]
  exact sint_bits_32 _ (by omega) (by omega)

theorem sint32_sxtl16High_vecHalf (a : Fin 8 → Fin (2 ^ 16)) (j : Nat) :
    sint 32 (sxtl16High (vecHalf a) j) = sint 16 (vecHalf a (4 + j)) := by
  have h := sint_bounds_16 (vecHalf a (4 + j)) (vecHalf_lt a (4 + j))
  simp only [sxtl16High]
  exact sint_bits_32 _ (by omega) (by omega)

theorem n42_addNat (n : Nat) : 4 + (2 + n) = 6 + n := by omega

theorem n82_addNat (n : Nat) : 8 + (2 + n) = 10 + n := by omega

theorem n122_addNat (n : Nat) : 12 + (2 + n) = 14 + n := by omega

/-- C4 counterexample: for the same-width 32-bit pair, with a zero
accumulator, a lane holding the largest positive signed value and a lane
holding the most negative signed value, the emitted Sub, Abs, Add
sequence wraps the subtraction (0x7FFFFFFF - 0x80000000 wraps to -1,
whose absolute value is 1) and yields lane value 1, while the exact
mathematical |int(a) - int(b)| = 2 ^ 32 - 1 reduced at the destination
lane width yields 4294967295: the intermediate subtraction overflows
relative to the 32-bit destination width. -/
theorem sadSameWidthOverflow :
    sad32to32 exAcc32 exMaxPos32 exMinNeg32 ⟨0, by omega⟩ = 1 ∧
      ((exAcc32 ⟨0, by omega⟩ : Nat)
          + sadDiff 32 (exMaxPos32 ⟨0, by omega⟩ : Nat)
              (exMinNeg32 ⟨0, by omega⟩ : Nat)) % 2 ^ 32 = 4294967295 := by
  decide

/-- C4 (amended): for the six strictly widening promotion pairs every
destination accumulator lane equals its previous value plus the sum of
|int(a_k) - int(b_k)| over the source lanes mapped to it, computed
exactly at the destination lane width; for the same-width pairs (32 into
32 and 64 into 64) this holds only when the signed subtraction does not
overflow the source width - otherwise the emitted wrap-around Sub and
two's complement Abs differ from the exact sum, as the counterexample
shows; and the Instruction Emitter consumes exactly the scratch vector
register count the Location Planner reserved for every pair it can emit. -/
theorem sadAccumulateLanes :
    (∀ (acc : Fin 8 → Fin (2 ^ 16)) (a b : Fin 16 → Fin 256) (i : Fin 8),
        sad8to16 acc a b i =
          ((acc i : Nat) + sadDiff 8 (vecByte a i.val) (vecByte b i.val)
            + sadDiff 8 (vecByte a (8 + i.val)) (vecByte b (8 + i.val))) % 2 ^ 16) ∧
    (∀ (acc : Fin 4 → Fin (2 ^ 32)) (a b : Fin 16 → Fin 256) (i : Fin 4),
        sad8to32 acc a b i =
          ((acc i : Nat) + sadDiff 8 (vecByte a i.val) (vecByte b i.val)
            + sadDiff 8 (vecByte a (4 + i.val)) (vecByte b (4 + i.val))
            + sadDiff 8 (vecByte a (8 + i.val)) (vecByte b (8 + i.val))
            + sadDiff 8 (vecByte a (12 + i.val)) (vecByte b (12 + i.val))) % 2 ^ 32) ∧
    (∀ (acc : Fin 2 → Fin (2 ^ 64)) (a b : Fin 16 → Fin 256) (i : Fin 2),
        sad8to64 acc a b i =
          ((acc i : Nat) + sadDiff 8 (vecByte a i.val) (vecByte b i.val)
            + sadDiff 8 (vecByte a (2 + i.val)) (vecByte b (2 + i.val))
            + sadDiff 8 (vecByte a (4 + i.val)) (vecByte b (4 + i.val))
            + sadDiff 8 (vecByte a (6 + i.val)) (vecByte b (6 + i.val))
            + sadDiff 8 (vecByte a (8 + i.val)) (vecByte b (8 + i.val))
            + sadDiff 8 (vecByte a (10 + i.val)) (vecByte b (10 + i.val))
            + sadDiff 8 (vecByte a (12 + i.val)) (vecByte b (12 + i.val))
            + sadDiff 8 (vecByte a (14 + i.val)) (vecByte b (14 + i.val))) % 2 ^ 64) ∧
    (∀ (acc : Fin 4 → Fin (2 ^ 32)) (a b : Fin 8 → Fin (2 ^ 16)) (i : Fin 4),
        sad16to32 acc a b i =
          ((acc i : Nat) + sadDiff 16 (vecHalf a i.val) (vecHalf b i.val)
            + sadDiff 16 (vecHalf a (4 + i.val)) (vecHalf b (4 + i.val))) % 2 ^ 32) ∧
    (∀ (acc : Fin 2 → Fin (2 ^ 64)) (a b : Fin 8 → Fin (2 ^ 16)) (i : Fin 2),
        sad16to64 acc a b i =
          ((acc i : Nat) + sadDiff 16 (vecHalf a i.val) (vecHalf b i.val)
            + sadDiff 16 (vecHalf a (2 + i.val)) (vecHalf b (2 + i.val))
            + sadDiff 16 (vecHalf a (4 + i.val)) (vecHalf b (4 + i.val))
            + sadDiff 16 (vecHalf a (6 + i.val)) (vecHalf b (6 + i.val))) % 2 ^ 64) ∧
    (∀ (acc : Fin 2 → Fin (2 ^ 64)) (a b : Fin 4 → Fin (2 ^ 32)) (i : Fin 2),
        sad32to64 acc a b i =
          ((acc i : Nat) + sadDiff 32 (vecWord a i.val) (vecWord b i.val)
            + sadDiff 32 (vecWord a (2 + i.val)) (vecWord b (2 + i.val))) % 2 ^ 64) ∧
    (∀ (acc a b : Fin 4 → Fin (2 ^ 32)) (i : Fin 4),
        -2147483648 ≤ sint 32 (a i : Nat) - sint 32 (b i : Nat) →
        sint 32 (a i : Nat) - sint 32 (b i : Nat) < 2147483648 →
        sad32to32 acc a b i =
          ((acc i : Nat) + sadDiff 32 (a i : Nat) (b i : Nat)) % 2 ^ 32) ∧
    (∀ (acc a b : Fin 2 → Fin (2 ^ 64)) (i : Fin 2),
        -9223372036854775808 ≤ sint 64 (a i : Nat) - sint 64 (b i : Nat) →
        sint 64 (a i : Nat) - sint 64 (b i : Nat) < 9223372036854775808 →
        sad64to64 acc a b i =
          ((acc i : Nat) + sadDiff 64 (a i : Nat) (b i : Nat)) % 2 ^ 64) ∧
    (∀ s d : VType,
        sadEmitterTemps s d = none ∨ sadPlannerTemps s d = sadEmitterTemps s d) := by
  refine ⟨fun acc a b i => ?_, fun acc a b i => ?_, fun acc a b i => ?_,
    fun acc a b i => ?_, fun acc a b i => ?_, fun acc a b i => ?_,
    fun acc a b i h1 h2 => ?_, fun acc a b i h1 h2 => ?_, by decide⟩
  · simp only [sad8to16, sabalStep]
    omega
  · simp only [sad8to32, sabalStep, sadDiff]
    simp only [sint16_sxtl8Low, sint16_sxtl8High, h84_addNat]
    omega
  · simp only [sad8to64, sabalStep, sadDiff]
    simp only [sint32_sxtl16Low_sxtl8Low, sint32_sxtl16High_sxtl8Low,
      sint32_sxtl16Low_sxtl8High, sint32_sxtl16High_sxtl8High]
    simp only [n42_addNat, n82_addNat, n122_addNat]
    omega
  · simp only [sad16to32, sabalStep]
    omega
  · simp only [sad16to64, sabalStep, sadDiff]
    simp only [sint32_sxtl16Low_vecHalf, sint32_sxtl16High_vecHalf]
    simp only [n42_addNat]
    omega
  · simp only [sad32to64, sabalStep]
    omega
  · have hx : (a i : Nat) < 4294967296 := (a i).isLt
    have hy : (b i : Nat) < 4294967296 := (b i).isLt
    have hsub : subLane 32 (a i : Nat) (b i : Nat)
        = bits 32 (sint 32 (a i : Nat) - sint 32 (b i : Nat)) := by
      simp only [subLane, bits, sint]
      split_ifs <;> omega
    have hrt := sint_bits_32 _ h1 h2
    simp only [sad32to32, addLane, absLane, hsub, hrt, sadDiff]
    simp only [bits]
    omega
  · have hx : (a i : Nat) < 18446744073709551616 := (a i).isLt
    have hy : (b i : Nat) < 18446744073709551616 := (b i).isLt
    have hsub : subLane 64 (a i : Nat) (b i : Nat)
        = bits 64 (sint 64 (a i : Nat) - sint 64 (b i : Nat)) := by
      simp only [subLane, bits, sint]
      split_ifs <;> omega
    have hrt := sint_bits_64 _ h1 h2
    simp only [sad64to64, addLane, absLane, hsub, hrt, sadDiff]
    simp only [bits]
    omega

/-- Witness for the amended C4 theorem: its same-width conjuncts applied
at all-zero vectors, where the signed difference is zero and both
no-overflow hypotheses hold. -/
theorem sadAccumulateLanes_witness :
    (-2147483648 ≤
        sint 32 (exAcc32 ⟨0, by omega⟩ : Nat) - sint 32 (exAcc32 ⟨0, by omega⟩ : Nat)) ∧
    (sint 32 (exAcc32 ⟨0, by omega⟩ : Nat) - sint 32 (exAcc32 ⟨0, by omega⟩ : Nat)
        < 2147483648) ∧
    sad32to32 exAcc32 exAcc32 exAcc32 ⟨0, by omega⟩ =
      ((exAcc32 ⟨0, by omega⟩ : Nat)
        + sadDiff 32 (exAcc32 ⟨0, by omega⟩ : Nat) (exAcc32 ⟨0, by omega⟩ : Nat))
        % 2 ^ 32 ∧
    sad64to64 exZero64 exZero64 exZero64 ⟨0, by omega⟩ =
      ((exZero64 ⟨0, by omega⟩ : Nat)
        + sadDiff 64 (exZero64 ⟨0, by omega⟩ : Nat) (exZero64 ⟨0, by omega⟩ : Nat))
        % 2 ^ 64 :=
  ⟨by decide, by decide,
    sadAccumulateLanes.2.2.2.2.2.2.1 exAcc32 exAcc32 exAcc32 ⟨0, by omega⟩
      (by decide) (by decide),
    sadAccumulateLanes.2.2.2.2.2.2.2.1 exZero64 exZero64 exZero64 ⟨0, by omega⟩
      (by decide) (by decide)⟩

end ArtSveVec
